import Mathlib

/-!
Verification of the boundary-aware clip generation and smart-alignment engine
of the shorts_maker repository.

Times are modelled as rationals (`ℚ`): the modelled code paths only compare,
add and subtract time values, so exact rational arithmetic is a faithful
shallow embedding of the Python floats on the inputs considered here.
Randomness (`random.uniform(0, max_start)`) is modelled by an explicit stream
of draws `draws : Nat → ℚ`, one value consumed per loop attempt; a draw
stream is admissible when every value lies in `[0, max_start]`, which is
exactly the support of `random.uniform(0, max_start)`.
-/

namespace ShortsMaker

/-- A stored clip `(start, end, name)`, as in the Python triples. -/
abbrev Clip := ℚ × ℚ × String

/-- Python's `abs` on rationals, written out so that it can be evaluated. -/
def rabs (x : ℚ) : ℚ := if x < 0 then -x else x

/-! ## Embedding of `video_analysis.SmartBoundaryFinder.find_smart_boundary`
(src/video_analysis.py, lines 180-234) -/

/-- The projection of the scene list to start or end edges
(the `scene_boundaries` accumulation loop in `find_smart_boundary`). -/
def sceneEdges (boundary_type : String) (scenes : List (ℚ × ℚ)) : List ℚ :=
  scenes.map (fun p => if boundary_type = "start" then p.1 else p.2)

/-- The `[s for s in ... if abs(s - time_point) <= max_adjustment]` filters. -/
def nearbyOf (time_point max_adjustment : ℚ) (cands : List ℚ) : List ℚ :=
  cands.filter (fun s => rabs (s - time_point) ≤ max_adjustment)

/-- One step of Python's `min(..., key=lambda x: abs(x - time_point))`:
the running best is replaced only by a strictly closer candidate
(CPython's `min` keeps the earliest minimum on ties). -/
def stepMin (time_point b y : ℚ) : ℚ :=
  if rabs (y - time_point) < rabs (b - time_point) then y else b

/-- Python's `min(lst, key=lambda x: abs(x - time_point))`, as an `Option`
(`none` exactly when the list is empty, where Python would not call `min`). -/
def minByDist (time_point : ℚ) : List ℚ → Option ℚ
  | [] => none
  | x :: xs => some (xs.foldl (stepMin time_point) x)

/-- Embedding of `SmartBoundaryFinder.find_smart_boundary`, including its
literal string comparisons of the `priority` argument. -/
def find_smart_boundary (time_point : ℚ) (scenes : List (ℚ × ℚ))
    (speech_boundaries : List ℚ) (enable_smart_cuts : Bool) (priority : String)
    (max_adjustment : ℚ) (boundary_type : String) : ℚ :=
  if enable_smart_cuts = false then time_point
  else if scenes = [] ∧ speech_boundaries = [] then time_point
  else
    let nearby_scenes := nearbyOf time_point max_adjustment (sceneEdges boundary_type scenes)
    let nearby_speech := nearbyOf time_point max_adjustment speech_boundaries
    if priority = "Scene Changes First" then
      match minByDist time_point nearby_scenes with
      | some b => b
      | none =>
        match minByDist time_point nearby_speech with
        | some b => b
        | none => time_point
    else if priority = "Speech Boundaries First" then
      match minByDist time_point nearby_speech with
      | some b => b
      | none =>
        match minByDist time_point nearby_scenes with
        | some b => b
        | none => time_point
    else if priority = "Nearest Boundary (either)" then
      match minByDist time_point (nearby_scenes ++ nearby_speech) with
      | some b => b
      | none => time_point
    else if priority = "Scene Start + Speech End" then
      if boundary_type = "start" ∧ nearby_scenes ≠ [] then
        (minByDist time_point nearby_scenes).getD time_point
      else if boundary_type = "end" ∧ nearby_speech ≠ [] then
        (minByDist time_point nearby_speech).getD time_point
      else
        match minByDist time_point (nearby_scenes ++ nearby_speech) with
        | some b => b
        | none => time_point
    else time_point

/-! ## Embedding of `video_export.ClipGenerator`
(src/video_export.py, lines 145-196) -/

/-- Window-shape invariant of a generated clip: `0 ≤ start < end ≤ duration`
and `end - start = fixedLength` (§8 of the spec). -/
def ValidWindow (video_duration fixedLength : ℚ) (c : Clip) : Prop :=
  0 ≤ c.1 ∧ c.1 < c.2.1 ∧ c.2.1 ≤ video_duration ∧ c.2.1 - c.1 = fixedLength

/-- Two windows are disjoint: one ends before the other starts. -/
def DisjointW (a b : Clip) : Prop := a.2.1 ≤ b.1 ∨ b.2.1 ≤ a.1

/-- The overlap scan of `generate_non_overlapping_clips`:
`not (end <= existing_start or start >= existing_end)` against every
already-accepted clip (early `break` is equivalent to `any`). -/
def overlapsAny (s e : ℚ) (clips : List Clip) : Bool :=
  clips.any (fun c => ! (decide (e ≤ c.1) || decide (s ≥ c.2.1)))

/-- Python's `clips.sort(key=lambda x: x[0])`; both CPython's sort and
`List.mergeSort` are stable. -/
def sortClips (clips : List Clip) : List Clip :=
  clips.mergeSort (fun a b => decide (a.1 ≤ b.1))

/-- The `while len(clips) < num_clips and attempts < max_attempts` loop of
`generate_non_overlapping_clips`; `fuel` is the number of attempts still
allowed, `attempts` the number already used (it indexes the draw stream). -/
def genLoop (video_duration duration : ℚ) (num_clips : Nat) (draws : Nat → ℚ) :
    Nat → Nat → List Clip → List Clip
  | 0, _, clips => clips
  | fuel + 1, attempts, clips =>
    if clips.length < num_clips then
      if video_duration - duration ≤ 0 then clips
      else
        let s := draws attempts
        let e := s + duration
        if overlapsAny s e clips then
          genLoop video_duration duration num_clips draws fuel (attempts + 1) clips
        else
          genLoop video_duration duration num_clips draws fuel (attempts + 1)
            (clips ++ [(s, e, "")])
    else clips

/-- Embedding of `ClipGenerator.generate_non_overlapping_clips`
(src/video_export.py, lines 167-196): rejection sampling with an attempt
budget of `num_clips * 20`, then a final sort by start.  The copy in
src/shorts_maker.py (lines 317-347) has the identical loop with
`random.randint` draws; its integer draws are a special case of the
rational draw streams quantified over here. -/
def generate_non_overlapping_clips (video_duration : ℚ) (num_clips : Nat)
    (duration : ℚ) (draws : Nat → ℚ) : List Clip :=
  sortClips (genLoop video_duration duration num_clips draws (num_clips * 20) 0 [])

/-- Embedding of `ClipGenerator.generate_overlapping_clips`
(src/video_export.py, lines 148-165). -/
def generate_overlapping_clips (video_duration : ℚ) (num_clips : Nat)
    (duration : ℚ) (draws : Nat → ℚ) : List Clip :=
  if video_duration - duration ≤ 0 then []
  else sortClips ((List.range num_clips).map (fun i => (draws i, draws i + duration, "")))

/-! ## Embedding of the application logic in `main.py` -/

/-- Whether `needle` is an initial segment of `hay` (character lists). -/
def startsWithL : List Char → List Char → Bool
  | [], _ => true
  | _ :: _, [] => false
  | a :: as, b :: bs => (decide (a = b)) && startsWithL as bs

/-- Whether `needle` occurs as a contiguous substring of `hay`: Python's `in`. -/
def containsL (needle : List Char) : List Char → Bool
  | [] => startsWithL needle []
  | b :: bs => startsWithL needle (b :: bs) || containsL needle bs

/-- Embedding of `VideoClipExtractor.get_current_mode` (src/main.py, lines
82-88): tests `"Smart" in method`. -/
def get_current_mode (method : String) : String :=
  if containsL "Smart".data method.data then "Smart" else "Random"

/-- The priority string chosen by `VideoClipExtractor.find_smart_boundary`
(src/main.py, lines 161-169) from the two analysis checkboxes. -/
def main_priority (scene_checked audio_checked : Bool) : String :=
  if scene_checked && audio_checked then "Scenes"
  else if scene_checked then "Scenes"
  else if audio_checked then "Speech"
  else "Scenes"

/-- Embedding of `VideoClipExtractor.find_smart_boundary` (src/main.py,
lines 152-177): returns the input unless the mode is Smart, otherwise delegates to
`SmartBoundaryFinder.find_smart_boundary` with `enable_smart_cuts=True` and
the checkbox-derived priority string. -/
def main_find_smart_boundary (method : String) (scene_checked audio_checked : Bool)
    (scenes : List (ℚ × ℚ)) (speech_boundaries : List ℚ) (max_adjustment : ℚ)
    (time_point : ℚ) (boundary_type : String) : ℚ :=
  if get_current_mode method ≠ "Smart" then time_point
  else
    find_smart_boundary time_point scenes speech_boundaries true
      (main_priority scene_checked audio_checked) max_adjustment boundary_type

/-- The smart-adjustment step of `VideoClipExtractor.generate_clips`
(src/main.py, lines 215-226): in Smart mode with analysis data, each window's
edges are resolved independently and the window is kept iff the adjusted pair
still satisfies `end > start`. -/
def apply_smart_adjustment (method : String) (scene_checked audio_checked : Bool)
    (scenes : List (ℚ × ℚ)) (speech_boundaries : List ℚ) (max_adjustment : ℚ)
    (generated_clips : List Clip) : List Clip :=
  if get_current_mode method = "Smart" ∧ (scenes ≠ [] ∨ speech_boundaries ≠ []) then
    generated_clips.filterMap (fun c =>
      let smart_start := main_find_smart_boundary method scene_checked audio_checked
        scenes speech_boundaries max_adjustment c.1 "start"
      let smart_end := main_find_smart_boundary method scene_checked audio_checked
        scenes speech_boundaries max_adjustment c.2.1 "end"
      if smart_start < smart_end then some (smart_start, smart_end, "") else none)
  else generated_clips

/-- Python's 4-digit zero padding of `n` (the format spec 04d). -/
def pad4 (n : Nat) : String :=
  let s := toString n
  if s.length < 4 then String.mk (List.replicate (4 - s.length) '0') ++ s else s

/-- Embedding of `VideoClipExtractor.add_manual_clip` (src/main.py, lines
249-323), from
the point where `start_time` has been parsed: bounds validation, clamping of
`end_time` to the video duration, optional smart adjustment, naming and
append.  `none` models the rejection message paths (no mutation). -/
def add_manual_clip (video_duration clip_duration : ℚ) (method : String)
    (scene_checked audio_checked : Bool) (scenes : List (ℚ × ℚ))
    (speech_boundaries : List ℚ) (max_adjustment : ℚ) (clips : List Clip)
    (start_time : ℚ) : Option (List Clip) :=
  let end_time := start_time + clip_duration
  if start_time < 0 then none
  else if start_time ≥ video_duration then none
  else
    let end_time := if end_time > video_duration then video_duration else end_time
    let pair :=
      if get_current_mode method = "Smart" ∧ (scenes ≠ [] ∨ speech_boundaries ≠ []) then
        let smart_start := main_find_smart_boundary method scene_checked audio_checked
          scenes speech_boundaries max_adjustment start_time "start"
        let smart_end := main_find_smart_boundary method scene_checked audio_checked
          scenes speech_boundaries max_adjustment end_time "end"
        if smart_start < smart_end ∧ smart_end ≤ video_duration then (smart_start, smart_end)
        else (start_time, end_time)
      else (start_time, end_time)
    some (clips ++ [(pair.1, pair.2, "manual_" ++ pad4 (clips.length + 1))])

/-- The all-zero draw stream (all mass at the left end of the support). -/
def zeroDraws : Nat → ℚ := fun _ => 0

/-- A draw stream whose first five values are 0, 20, 40, 60, 80. -/
def feasibleDraws : Nat → ℚ := fun i => ([0, 20, 40, 60, 80] : List ℚ).getD i 0

/-! ## Helper lemmas -/

theorem rabs_eq_abs (x : ℚ) : rabs x = |x| := by
  unfold rabs
  rcases lt_or_le x 0 with h | h
  · rw [if_pos h, abs_of_neg h]
  · rw [if_neg (not_lt.mpr h), abs_of_nonneg h]

theorem foldl_stepMin_shrink (t b : ℚ) (l : List ℚ) :
    rabs (l.foldl (stepMin t) b - t) ≤ rabs (b - t) := by
  induction l generalizing b with
  | nil => exact le_refl _
  | cons y ys ih =>
    simp only [List.foldl_cons]
    refine le_trans (ih (stepMin t b y)) ?_
    unfold stepMin
    split
    · exact le_of_lt ‹_›
    · exact le_refl _

theorem foldl_stepMin_mem (t b : ℚ) (l : List ℚ) :
    l.foldl (stepMin t) b ∈ b :: l := by
  induction l generalizing b with
  | nil => simp [List.foldl]
  | cons y ys ih =>
    simp only [List.foldl_cons]
    have h := ih (stepMin t b y)
    have hs : stepMin t b y = y ∨ stepMin t b y = b := by
      unfold stepMin; split
      · exact Or.inl rfl
      · exact Or.inr rfl
    rcases List.mem_cons.mp h with h | h
    · rw [h]
      rcases hs with h2 | h2 <;> rw [h2] <;> simp
    · exact List.mem_cons_of_mem _ (List.mem_cons_of_mem _ h)

theorem foldl_stepMin_le (t b : ℚ) (l : List ℚ) :
    ∀ y ∈ l, rabs (l.foldl (stepMin t) b - t) ≤ rabs (y - t) := by
  induction l generalizing b with
  | nil => intro y hy; cases hy
  | cons z zs ih =>
    intro y hy
    simp only [List.foldl_cons]
    rcases List.mem_cons.mp hy with rfl | hy
    · refine le_trans (foldl_stepMin_shrink t _ zs) ?_
      unfold stepMin
      split
      · exact le_refl _
      · exact le_of_not_lt ‹_›
    · exact ih (stepMin t b z) y hy

theorem foldl_stepMin_stay (t b : ℚ) (l : List ℚ)
    (h : ∀ y ∈ l, rabs (b - t) ≤ rabs (y - t)) :
    l.foldl (stepMin t) b = b := by
  induction l with
  | nil => rfl
  | cons z zs ih =>
    simp only [List.foldl_cons]
    have hz : stepMin t b z = b := by
      unfold stepMin
      rw [if_neg (not_lt.mpr (h z (List.mem_cons_self z zs)))]
    rw [hz]
    exact ih (fun y hy => h y (List.mem_cons_of_mem z hy))

theorem minByDist_mem (t : ℚ) (l : List ℚ) (m : ℚ) (h : minByDist t l = some m) :
    m ∈ l := by
  cases l with
  | nil => simp [minByDist] at h
  | cons x xs =>
    simp only [minByDist, Option.some.injEq] at h
    exact h ▸ foldl_stepMin_mem t x xs

theorem minByDist_le (t : ℚ) (l : List ℚ) (m : ℚ) (h : minByDist t l = some m) :
    ∀ y ∈ l, rabs (m - t) ≤ rabs (y - t) := by
  cases l with
  | nil => simp [minByDist] at h
  | cons x xs =>
    simp only [minByDist, Option.some.injEq] at h
    subst h
    intro y hy
    rcases List.mem_cons.mp hy with rfl | hy
    · exact foldl_stepMin_shrink t y xs
    · exact foldl_stepMin_le t x xs y hy

theorem minByDist_append_mem_left (t : ℚ) (l1 l2 : List ℚ) (a : ℚ) (ha : a ∈ l1)
    (hmin : ∀ y ∈ l1 ++ l2, rabs (a - t) ≤ rabs (y - t)) :
    ∃ m, minByDist t (l1 ++ l2) = some m ∧ m ∈ l1 ∧ rabs (m - t) = rabs (a - t) := by
  cases l1 with
  | nil => cases ha
  | cons x xs =>
    refine ⟨(xs ++ l2).foldl (stepMin t) x, rfl, ?_, ?_⟩
    all_goals
      rw [List.foldl_append]
      have hc : xs.foldl (stepMin t) x ∈ x :: xs := foldl_stepMin_mem t x xs
      have hcbest : ∀ y ∈ x :: xs, rabs (xs.foldl (stepMin t) x - t) ≤ rabs (y - t) := by
        intro y hy
        rcases List.mem_cons.mp hy with rfl | hy
        · exact foldl_stepMin_shrink t y xs
        · exact foldl_stepMin_le t x xs y hy
      have hca : rabs (xs.foldl (stepMin t) x - t) ≤ rabs (a - t) := hcbest a ha
      have hstay : l2.foldl (stepMin t) (xs.foldl (stepMin t) x) = xs.foldl (stepMin t) x := by
        refine foldl_stepMin_stay t _ l2 (fun y hy => le_trans hca ?_)
        exact hmin y (List.mem_append.mpr (Or.inr hy))
      rw [hstay]
    · exact hc
    · exact le_antisymm hca (hmin _ (List.mem_append.mpr (Or.inl hc)))

theorem find_smart_boundary_unmatched (time_point : ℚ) (scenes : List (ℚ × ℚ))
    (speech_boundaries : List ℚ) (enable_smart_cuts : Bool) (priority : String)
    (max_adjustment : ℚ) (boundary_type : String)
    (h1 : priority ≠ "Scene Changes First") (h2 : priority ≠ "Speech Boundaries First")
    (h3 : priority ≠ "Nearest Boundary (either)") (h4 : priority ≠ "Scene Start + Speech End") :
    find_smart_boundary time_point scenes speech_boundaries enable_smart_cuts priority
      max_adjustment boundary_type = time_point := by
  unfold find_smart_boundary
  split
  · rfl
  · split
    · rfl
    · simp only [if_neg h1, if_neg h2, if_neg h3, if_neg h4]

theorem main_priority_eq (scene_checked audio_checked : Bool) :
    main_priority scene_checked audio_checked = "Scenes" ∨
      main_priority scene_checked audio_checked = "Speech" := by
  cases scene_checked <;> cases audio_checked <;> simp [main_priority]

theorem main_find_smart_boundary_eq (method : String) (scene_checked audio_checked : Bool)
    (scenes : List (ℚ × ℚ)) (speech_boundaries : List ℚ) (max_adjustment time_point : ℚ)
    (boundary_type : String) :
    main_find_smart_boundary method scene_checked audio_checked scenes speech_boundaries
      max_adjustment time_point boundary_type = time_point := by
  unfold main_find_smart_boundary
  split
  · rfl
  · rcases main_priority_eq scene_checked audio_checked with h | h <;>
      exact find_smart_boundary_unmatched _ _ _ _ _ _ _
        (by rw [h]; decide) (by rw [h]; decide) (by rw [h]; decide) (by rw [h]; decide)

theorem overlapsAny_eq_false_iff (s e : ℚ) (clips : List Clip) :
    overlapsAny s e clips = false ↔ ∀ c ∈ clips, e ≤ c.1 ∨ s ≥ c.2.1 := by
  unfold overlapsAny
  rw [List.any_eq_false]
  constructor
  · intro h c hc
    have h2 := h c hc
    rcases le_or_lt e c.1 with h3 | h3
    · exact Or.inl h3
    · rcases le_or_lt c.2.1 s with h4 | h4
      · exact Or.inr h4
      · exfalso
        apply h2
        simp only [Bool.not_eq_true', Bool.or_eq_false_iff, decide_eq_false_iff_not]
        exact ⟨not_le.mpr h3, not_le.mpr h4⟩
  · intro h c hc
    have h2 := h c hc
    simp only [Bool.not_eq_true', Bool.or_eq_false_iff, decide_eq_false_iff_not, not_le]
    intro hcon
    rcases h2 with h3 | h3
    · exact absurd h3 (not_le.mpr hcon.1)
    · exact absurd h3 (not_le.mpr hcon.2)

theorem disjointW_symm : Symmetric DisjointW := by
  intro a b h
  exact h.symm

theorem sortClips_perm (clips : List Clip) : List.Perm (sortClips clips) clips :=
  List.mergeSort_perm clips _

theorem sortClips_sorted (clips : List Clip) :
    List.Pairwise (fun a b : Clip => a.1 ≤ b.1) (sortClips clips) := by
  unfold sortClips
  refine List.Pairwise.imp ?_ (List.sorted_mergeSort ?_ ?_ clips)
  · intro a b hab
    exact of_decide_eq_true hab
  · intro a b c hab hbc
    simp only [decide_eq_true_eq] at hab hbc ⊢
    exact le_trans hab hbc
  · intro a b
    simpa only [Bool.or_eq_true, decide_eq_true_eq] using le_total a.1 b.1

theorem genLoop_invariant (vd dur : ℚ) (n : Nat) (draws : Nat → ℚ)
    (hdur : 0 < dur)
    (hd : 0 < vd - dur → ∀ i, 0 ≤ draws i ∧ draws i ≤ vd - dur) :
    ∀ fuel attempts clips,
      (∀ c ∈ clips, ValidWindow vd dur c) → List.Pairwise DisjointW clips →
      (∀ c ∈ genLoop vd dur n draws fuel attempts clips, ValidWindow vd dur c) ∧
        List.Pairwise DisjointW (genLoop vd dur n draws fuel attempts clips) := by
  intro fuel
  induction fuel with
  | zero =>
    intro attempts clips hv hp
    exact ⟨hv, hp⟩
  | succ f ih =>
    intro attempts clips hv hp
    simp only [genLoop]
    split
    · split
      · exact ⟨hv, hp⟩
      · rename_i hfeas
        have hpos : 0 < vd - dur := lt_of_not_le hfeas
        split
        · exact ih _ _ hv hp
        · rename_i hover
          have hnov : overlapsAny (draws attempts) (draws attempts + dur) clips = false :=
            Bool.eq_false_iff.mpr hover
          have hfree := (overlapsAny_eq_false_iff _ _ _).mp hnov
          have hrange := hd hpos attempts
          refine ih _ _ ?_ ?_
          · intro c hc
            rcases List.mem_append.mp hc with hc | hc
            · exact hv c hc
            · simp only [List.mem_singleton] at hc
              subst hc
              refine ⟨hrange.1, show draws attempts < draws attempts + dur by linarith,
                show draws attempts + dur ≤ vd by linarith [hrange.2],
                show draws attempts + dur - draws attempts = dur by ring⟩
          · rw [List.pairwise_append]
            refine ⟨hp, List.pairwise_singleton _ _, ?_⟩
            intro a ha b hb
            simp only [List.mem_singleton] at hb
            subst hb
            rcases hfree a ha with h | h
            · exact Or.inr h
            · exact Or.inl h
    · exact ⟨hv, hp⟩

theorem genLoop_length_le (vd dur : ℚ) (n : Nat) (draws : Nat → ℚ) :
    ∀ fuel attempts clips, clips.length ≤ n →
      (genLoop vd dur n draws fuel attempts clips).length ≤ n := by
  intro fuel
  induction fuel with
  | zero =>
    intro attempts clips h
    exact h
  | succ f ih =>
    intro attempts clips h
    simp only [genLoop]
    split
    · split
      · exact h
      · split
        · exact ih _ _ h
        · refine ih _ _ ?_
          rename_i hlt _ _
          simp only [List.length_append, List.length_singleton]
          omega
    · exact h

theorem genLoop_zero (vd dur : ℚ) (n : Nat) (draws : Nat → ℚ) (attempts : Nat)
    (clips : List Clip) : genLoop vd dur n draws 0 attempts clips = clips := rfl

theorem genLoop_succ (vd dur : ℚ) (n : Nat) (draws : Nat → ℚ) (fuel attempts : Nat)
    (clips : List Clip) :
    genLoop vd dur n draws (fuel + 1) attempts clips =
      if clips.length < n then
        if vd - dur ≤ 0 then clips
        else
          if overlapsAny (draws attempts) (draws attempts + dur) clips then
            genLoop vd dur n draws fuel (attempts + 1) clips
          else
            genLoop vd dur n draws fuel (attempts + 1)
              (clips ++ [(draws attempts, draws attempts + dur, "")])
      else clips := rfl

theorem overlapsAny_eq_true_iff (s e : ℚ) (clips : List Clip) :
    overlapsAny s e clips = true ↔ ∃ c ∈ clips, c.1 < e ∧ s < c.2.1 := by
  constructor
  · intro h
    by_contra hno
    push_neg at hno
    have hfalse : overlapsAny s e clips = false := by
      refine (overlapsAny_eq_false_iff s e clips).mpr (fun c hc => ?_)
      rcases le_or_lt e c.1 with h1 | h1
      · exact Or.inl h1
      · exact Or.inr (hno c hc h1)
    rw [hfalse] at h
    cases h
  · rintro ⟨c, hc, h1, h2⟩
    cases hov : overlapsAny s e clips
    · exfalso
      rcases (overlapsAny_eq_false_iff s e clips).mp hov c hc with h | h
      · exact absurd h1 (not_lt.mpr h)
      · exact absurd h2 (not_lt.mpr h)
    · rfl

theorem genLoop_infeasible (vd dur : ℚ) (n : Nat) (draws : Nat → ℚ)
    (h : vd - dur ≤ 0) (fuel attempts : Nat) :
    genLoop vd dur n draws fuel attempts [] = [] := by
  cases fuel with
  | zero => rfl
  | succ f => simp [genLoop, h]

theorem sortClips_of_sorted (clips : List Clip)
    (h : List.Pairwise (fun a b : Clip => a.1 ≤ b.1) clips) : sortClips clips = clips := by
  unfold sortClips
  exact List.mergeSort_of_sorted (h.imp (fun hab => decide_eq_true hab))

theorem foldl_stepMin_best (t x : ℚ) (xs : List ℚ) :
    ∀ y ∈ x :: xs, rabs (xs.foldl (stepMin t) x - t) ≤ rabs (y - t) := by
  intro y hy
  rcases List.mem_cons.mp hy with rfl | hy
  · exact foldl_stepMin_shrink t y xs
  · exact foldl_stepMin_le t x xs y hy

theorem find_smart_boundary_empty (time_point : ℚ) (enable_smart_cuts : Bool)
    (priority : String) (max_adjustment : ℚ) (boundary_type : String) :
    find_smart_boundary time_point [] [] enable_smart_cuts priority
      max_adjustment boundary_type = time_point := by
  unfold find_smart_boundary
  split
  · rfl
  · rw [if_pos ⟨rfl, rfl⟩]

theorem fsb_scene_start_speech_end (time_point max_adjustment : ℚ)
    (scenes : List (ℚ × ℚ)) (speech_boundaries : List ℚ) (boundary_type : String)
    (hguard : ¬(scenes = [] ∧ speech_boundaries = [])) :
    find_smart_boundary time_point scenes speech_boundaries true
        "Scene Start + Speech End" max_adjustment boundary_type =
      if boundary_type = "start" ∧
          nearbyOf time_point max_adjustment (sceneEdges boundary_type scenes) ≠ [] then
        (minByDist time_point
          (nearbyOf time_point max_adjustment (sceneEdges boundary_type scenes))).getD time_point
      else if boundary_type = "end" ∧
          nearbyOf time_point max_adjustment speech_boundaries ≠ [] then
        (minByDist time_point (nearbyOf time_point max_adjustment speech_boundaries)).getD time_point
      else
        match minByDist time_point
            (nearbyOf time_point max_adjustment (sceneEdges boundary_type scenes) ++
              nearbyOf time_point max_adjustment speech_boundaries) with
        | some b => b
        | none => time_point := by
  unfold find_smart_boundary
  simp only [if_neg (show ¬(true = false) by decide), if_neg hguard,
    if_neg (show ¬("Scene Start + Speech End" = "Scene Changes First") by decide),
    if_neg (show ¬("Scene Start + Speech End" = "Speech Boundaries First") by decide),
    if_neg (show ¬("Scene Start + Speech End" = "Nearest Boundary (either)") by decide),
    eq_self_iff_true, if_true]

theorem fsb_nearest_either (time_point max_adjustment : ℚ) (scenes : List (ℚ × ℚ))
    (speech_boundaries : List ℚ) (boundary_type : String)
    (hguard : ¬(scenes = [] ∧ speech_boundaries = [])) :
    find_smart_boundary time_point scenes speech_boundaries true
        "Nearest Boundary (either)" max_adjustment boundary_type =
      match minByDist time_point
          (nearbyOf time_point max_adjustment (sceneEdges boundary_type scenes) ++
            nearbyOf time_point max_adjustment speech_boundaries) with
      | some b => b
      | none => time_point := by
  unfold find_smart_boundary
  simp only [if_neg (show ¬(true = false) by decide), if_neg hguard,
    if_neg (show ¬("Nearest Boundary (either)" = "Scene Changes First") by decide),
    if_neg (show ¬("Nearest Boundary (either)" = "Speech Boundaries First") by decide),
    eq_self_iff_true, if_true]

/-! ## Claim theorems -/

/-- C1 (amended: the hypothesis `0 < fixedLength` is added, forced by the
counterexample at `fixedLength = 0`): for every admissible draw stream, every
sequence returned by `generate_non_overlapping_clips` contains only windows
with `0 ≤ start < end ≤ video_duration` and `end - start = fixedLength`, is
sorted ascending by start, and is pairwise disjoint. -/
theorem c1_nonoverlap_valid_sorted_disjoint (video_duration fixedLength : ℚ)
    (num_clips : Nat) (draws : Nat → ℚ) (hdur : 0 < fixedLength)
    (hd : 0 < video_duration - fixedLength →
      ∀ i, 0 ≤ draws i ∧ draws i ≤ video_duration - fixedLength) :
    (∀ c ∈ generate_non_overlapping_clips video_duration num_clips fixedLength draws,
        ValidWindow video_duration fixedLength c) ∧
      List.Pairwise (fun a b : Clip => a.1 ≤ b.1)
        (generate_non_overlapping_clips video_duration num_clips fixedLength draws) ∧
      List.Pairwise DisjointW
        (generate_non_overlapping_clips video_duration num_clips fixedLength draws) := by
  have hinv := genLoop_invariant video_duration fixedLength num_clips draws hdur hd
    (num_clips * 20) 0 [] (fun c hc => absurd hc (List.not_mem_nil c)) List.Pairwise.nil
  unfold generate_non_overlapping_clips
  refine ⟨?_, sortClips_sorted _, ?_⟩
  · intro c hc
    exact hinv.1 c ((sortClips_perm _).mem_iff.mp hc)
  · exact ((sortClips_perm _).pairwise_iff (fun h => Or.symm h)).mpr hinv.2

/-- Witness for C1: a concrete admissible instance. -/
theorem c1_witness :
    (∀ c ∈ generate_non_overlapping_clips 100 1 10 zeroDraws, ValidWindow 100 10 c) ∧
      List.Pairwise (fun a b : Clip => a.1 ≤ b.1)
        (generate_non_overlapping_clips 100 1 10 zeroDraws) ∧
      List.Pairwise DisjointW (generate_non_overlapping_clips 100 1 10 zeroDraws) :=
  c1_nonoverlap_valid_sorted_disjoint 100 10 1 zeroDraws (by norm_num)
    (fun _ i => ⟨le_refl 0, by norm_num [zeroDraws]⟩)

/-- C2: the application-level resolver always passes the priority string
"Scenes" or "Speech", which matches none of the four policy names compared
against in `SmartBoundaryFinder.find_smart_boundary`, so it returns the
input time point unchanged - Smart-mode generation and manual addition
never move a clip edge. -/
theorem c2_app_smart_boundary_identity (method : String)
    (scene_checked audio_checked : Bool) (scenes : List (ℚ × ℚ))
    (speech_boundaries : List ℚ) (max_adjustment time_point : ℚ)
    (boundary_type : String) (_hdata : scenes ≠ [] ∨ speech_boundaries ≠ []) :
    (main_priority scene_checked audio_checked = "Scenes" ∨
        main_priority scene_checked audio_checked = "Speech") ∧
      main_find_smart_boundary method scene_checked audio_checked scenes
        speech_boundaries max_adjustment time_point boundary_type = time_point :=
  ⟨main_priority_eq scene_checked audio_checked,
    main_find_smart_boundary_eq method scene_checked audio_checked scenes
      speech_boundaries max_adjustment time_point boundary_type⟩

/-- Witness for C2 at a concrete configuration with non-empty scene data. -/
theorem c2_witness :
    (main_priority true true = "Scenes" ∨ main_priority true true = "Speech") ∧
      main_find_smart_boundary "Smart Cutting" true true [(0, 5)] [] 1 3 "start" = 3 :=
  c2_app_smart_boundary_identity "Smart Cutting" true true [(0, 5)] [] 1 3 "start"
    (Or.inl (List.cons_ne_nil _ _))

/-- C7: whenever `video_duration - fixedLength ≤ 0`, both generators return
the empty sequence without error. -/
theorem c7_infeasible_returns_empty (video_duration fixedLength : ℚ)
    (num_clips : Nat) (draws : Nat → ℚ) (h : video_duration - fixedLength ≤ 0) :
    generate_overlapping_clips video_duration num_clips fixedLength draws = [] ∧
      generate_non_overlapping_clips video_duration num_clips fixedLength draws = [] := by
  constructor
  · unfold generate_overlapping_clips
    rw [if_pos h]
  · unfold generate_non_overlapping_clips
    rw [genLoop_infeasible _ _ _ _ h]
    simp [sortClips]

/-- Witness for C7: the spec scenario `duration=10, count=3, fixedLength=20`. -/
theorem c7_witness :
    generate_overlapping_clips 10 3 20 zeroDraws = [] ∧
      generate_non_overlapping_clips 10 3 20 zeroDraws = [] :=
  c7_infeasible_returns_empty 10 20 3 zeroDraws (by norm_num)

/-- C9: adding a manual clip with `start=50`, `end=200` against
`duration=100` clamps the end to `100`, accepts `(50, 100)` and appends it
to the existing clip list (which is otherwise unchanged), for every prior
clip list and every mode/checkbox/analysis configuration. -/
theorem c9_add_manual_clip_clamps_and_appends (method : String)
    (scene_checked audio_checked : Bool) (scenes : List (ℚ × ℚ))
    (speech_boundaries : List ℚ) (max_adjustment : ℚ) (clips : List Clip) :
    add_manual_clip 100 150 method scene_checked audio_checked scenes
      speech_boundaries max_adjustment clips 50 =
      some (clips ++ [(50, 100, "manual_" ++ pad4 (clips.length + 1))]) := by
  unfold add_manual_clip
  simp only [main_find_smart_boundary_eq]
  norm_num

/-- C10: the resolver is the identity whenever smart cuts are disabled, and
likewise whenever both boundary lists are empty, for every policy string and
tolerance. -/
theorem c10_resolver_identity_when_disabled_or_empty (time_point : ℚ)
    (scenes : List (ℚ × ℚ)) (speech_boundaries : List ℚ)
    (enable_smart_cuts : Bool) (priority : String) (max_adjustment : ℚ)
    (boundary_type : String) :
    find_smart_boundary time_point scenes speech_boundaries false priority
        max_adjustment boundary_type = time_point ∧
      (scenes = [] → speech_boundaries = [] →
        find_smart_boundary time_point scenes speech_boundaries enable_smart_cuts
          priority max_adjustment boundary_type = time_point) := by
  constructor
  · unfold find_smart_boundary
    rw [if_pos rfl]
  · intro h1 h2
    subst h1
    subst h2
    unfold find_smart_boundary
    split
    · rfl
    · rw [if_pos ⟨rfl, rfl⟩]

/-- Witness for C10 at a concrete time point and empty boundary data. -/
theorem c10_witness :
    find_smart_boundary 7 [] [] false "Scene Changes First" 2 "start" = 7 ∧
      find_smart_boundary 7 [] [] true "Scene Changes First" 2 "start" = 7 :=
  ⟨(c10_resolver_identity_when_disabled_or_empty 7 [] [] true
      "Scene Changes First" 2 "start").1,
    (c10_resolver_identity_when_disabled_or_empty 7 [] [] true
      "Scene Changes First" 2 "start").2 rfl rfl⟩

/-- C4: on scenes `[(0,5),(5,12)]`, speech `[4.8, 11.9]`, `t=5.2`,
`kind=start`, `maxAdjustment=1`: the "Scene Changes First" policy resolves to
`5` (the nearest scene-start candidate within tolerance, not `4.8`), and the
"Speech Boundaries First" policy resolves to `4.8` on the same data. -/
theorem c4_scene_priority_vs_speech_priority_scenario :
    find_smart_boundary (26/5) [(0, 5), (5, 12)] [24/5, 119/10] true
        "Scene Changes First" 1 "start" = 5 ∧
      find_smart_boundary (26/5) [(0, 5), (5, 12)] [24/5, 119/10] true
        "Speech Boundaries First" 1 "start" = 24/5 := by
  constructor
  · norm_num [find_smart_boundary, nearbyOf, sceneEdges, minByDist, stepMin, rabs,
      List.filter, List.foldl]
    decide
  · norm_num [find_smart_boundary, nearbyOf, sceneEdges, minByDist, stepMin, rabs,
      List.filter, List.foldl]
    rw [if_neg (fun h => List.cons_ne_nil _ _ h.1), if_neg (by decide)]

/-- C5: under the "Scene Start + Speech End" policy, a start edge with a
scene candidate within tolerance resolves to the nearest scene candidate
(speech is never consulted), an end edge with a speech candidate within
tolerance resolves to the nearest speech candidate, and when the preferred
category has no candidate the result coincides with the
"Nearest Boundary (either)" policy over the union of both candidate sets. -/
theorem c5_scene_start_speech_end_cases (time_point max_adjustment : ℚ)
    (scenes : List (ℚ × ℚ)) (speech_boundaries : List ℚ) (boundary_type : String) :
    (boundary_type = "start" →
      nearbyOf time_point max_adjustment (sceneEdges boundary_type scenes) ≠ [] →
      find_smart_boundary time_point scenes speech_boundaries true
          "Scene Start + Speech End" max_adjustment boundary_type ∈
        nearbyOf time_point max_adjustment (sceneEdges boundary_type scenes) ∧
      ∀ y ∈ nearbyOf time_point max_adjustment (sceneEdges boundary_type scenes),
        rabs (find_smart_boundary time_point scenes speech_boundaries true
            "Scene Start + Speech End" max_adjustment boundary_type - time_point) ≤
          rabs (y - time_point)) ∧
    (boundary_type = "end" →
      nearbyOf time_point max_adjustment speech_boundaries ≠ [] →
      find_smart_boundary time_point scenes speech_boundaries true
          "Scene Start + Speech End" max_adjustment boundary_type ∈
        nearbyOf time_point max_adjustment speech_boundaries ∧
      ∀ y ∈ nearbyOf time_point max_adjustment speech_boundaries,
        rabs (find_smart_boundary time_point scenes speech_boundaries true
            "Scene Start + Speech End" max_adjustment boundary_type - time_point) ≤
          rabs (y - time_point)) ∧
    ((boundary_type = "start" ∧
        nearbyOf time_point max_adjustment (sceneEdges boundary_type scenes) = []) ∨
      (boundary_type = "end" ∧
        nearbyOf time_point max_adjustment speech_boundaries = []) →
      find_smart_boundary time_point scenes speech_boundaries true
          "Scene Start + Speech End" max_adjustment boundary_type =
        find_smart_boundary time_point scenes speech_boundaries true
          "Nearest Boundary (either)" max_adjustment boundary_type) := by
  refine ⟨?_, ?_, ?_⟩
  · intro hb hne
    subst hb
    have hguard : ¬(scenes = [] ∧ speech_boundaries = []) := by
      rintro ⟨h1, h2⟩
      subst h1
      exact hne (by simp [nearbyOf, sceneEdges])
    rw [fsb_scene_start_speech_end _ _ _ _ _ hguard, if_pos ⟨rfl, hne⟩]
    cases hNS : nearbyOf time_point max_adjustment (sceneEdges "start" scenes) with
    | nil => exact absurd hNS hne
    | cons x xs =>
      simp only [minByDist, Option.getD_some]
      exact ⟨hNS ▸ foldl_stepMin_mem time_point x xs,
        fun y hy => foldl_stepMin_best time_point x xs y (hNS ▸ hy)⟩
  · intro hb hne
    subst hb
    have hguard : ¬(scenes = [] ∧ speech_boundaries = []) := by
      rintro ⟨h1, h2⟩
      subst h2
      exact hne (by simp [nearbyOf])
    have hfirst : ¬(("end" : String) = "start" ∧
        nearbyOf time_point max_adjustment (sceneEdges "end" scenes) ≠ []) :=
      fun h => absurd h.1 (by decide)
    rw [fsb_scene_start_speech_end _ _ _ _ _ hguard, if_neg hfirst, if_pos ⟨rfl, hne⟩]
    cases hNP : nearbyOf time_point max_adjustment speech_boundaries with
    | nil => exact absurd hNP hne
    | cons x xs =>
      simp only [minByDist, Option.getD_some]
      exact ⟨hNP ▸ foldl_stepMin_mem time_point x xs,
        fun y hy => foldl_stepMin_best time_point x xs y (hNP ▸ hy)⟩
  · intro h
    by_cases hg : scenes = [] ∧ speech_boundaries = []
    · obtain ⟨h1, h2⟩ := hg
      subst h1
      subst h2
      rw [find_smart_boundary_empty, find_smart_boundary_empty]
    · rw [fsb_scene_start_speech_end _ _ _ _ _ hg, fsb_nearest_either _ _ _ _ _ hg]
      rcases h with ⟨hb, hNS⟩ | ⟨hb, hNP⟩
      · subst hb
        rw [if_neg (fun hc => hc.2 hNS),
          if_neg (fun hc => absurd hc.1 (by decide))]
      · subst hb
        rw [if_neg (fun hc => absurd hc.1 (by decide)),
          if_neg (fun hc => hc.2 hNP)]

/-- Witness for C5: all three cases instantiated on concrete data. -/
theorem c5_witness :
    (find_smart_boundary 0 [(1, 3)] [] true "Scene Start + Speech End" 1 "start" ∈
        nearbyOf 0 1 (sceneEdges "start" [(1, 3)]) ∧
      ∀ y ∈ nearbyOf 0 1 (sceneEdges "start" [(1, 3)]),
        rabs (find_smart_boundary 0 [(1, 3)] [] true "Scene Start + Speech End" 1 "start" - 0) ≤
          rabs (y - 0)) ∧
    (find_smart_boundary 0 [] [1] true "Scene Start + Speech End" 1 "end" ∈
        nearbyOf 0 1 [1] ∧
      ∀ y ∈ nearbyOf 0 1 [1],
        rabs (find_smart_boundary 0 [] [1] true "Scene Start + Speech End" 1 "end" - 0) ≤
          rabs (y - 0)) ∧
    find_smart_boundary 0 [(5, 9)] [1] true "Scene Start + Speech End" 1 "start" =
      find_smart_boundary 0 [(5, 9)] [1] true "Nearest Boundary (either)" 1 "start" :=
  ⟨(c5_scene_start_speech_end_cases 0 1 [(1, 3)] [] "start").1 rfl
      (by norm_num [nearbyOf, sceneEdges, rabs]),
    (c5_scene_start_speech_end_cases 0 1 [] [1] "end").2.1 rfl
      (by norm_num [nearbyOf, rabs]),
    (c5_scene_start_speech_end_cases 0 1 [(5, 9)] [1] "start").2.2
      (Or.inl ⟨rfl, by norm_num [nearbyOf, sceneEdges, rabs]⟩)⟩

/-- C6: under the "Nearest Boundary (either)" policy, when a scene candidate
and a speech candidate are both within tolerance, equidistant from `t`, and
of minimal distance among all candidates, the resolver returns a scene
candidate (the lists are concatenated scenes-first and the minimum is
stable), at the same distance as the tied speech candidate. -/
theorem c6_nearest_either_tie_prefers_scene (time_point max_adjustment : ℚ)
    (scenes : List (ℚ × ℚ)) (speech_boundaries : List ℚ) (boundary_type : String)
    (s p : ℚ)
    (hs : s ∈ nearbyOf time_point max_adjustment (sceneEdges boundary_type scenes))
    (hp : p ∈ nearbyOf time_point max_adjustment speech_boundaries)
    (heq : rabs (s - time_point) = rabs (p - time_point))
    (hmin : ∀ q ∈ nearbyOf time_point max_adjustment (sceneEdges boundary_type scenes) ++
        nearbyOf time_point max_adjustment speech_boundaries,
        rabs (s - time_point) ≤ rabs (q - time_point)) :
    find_smart_boundary time_point scenes speech_boundaries true
        "Nearest Boundary (either)" max_adjustment boundary_type ∈
      nearbyOf time_point max_adjustment (sceneEdges boundary_type scenes) ∧
    rabs (find_smart_boundary time_point scenes speech_boundaries true
        "Nearest Boundary (either)" max_adjustment boundary_type - time_point) =
      rabs (s - time_point) ∧
    rabs (find_smart_boundary time_point scenes speech_boundaries true
        "Nearest Boundary (either)" max_adjustment boundary_type - time_point) =
      rabs (p - time_point) := by
  have hguard : ¬(scenes = [] ∧ speech_boundaries = []) := by
    rintro ⟨h1, h2⟩
    subst h2
    simp [nearbyOf] at hp
  rw [fsb_nearest_either _ _ _ _ _ hguard]
  obtain ⟨m, hm, hmem, hdist⟩ := minByDist_append_mem_left time_point _ _ s hs hmin
  rw [hm]
  exact ⟨hmem, hdist, heq ▸ hdist⟩

/-- Witness for C6: scene start 2 and speech boundary 0 are equidistant from
`t = 1` and both minimal; the resolver picks the scene candidate 2. -/
theorem c6_witness :
    find_smart_boundary 1 [(2, 5)] [0] true "Nearest Boundary (either)" 1 "start" ∈
      nearbyOf 1 1 (sceneEdges "start" [(2, 5)]) ∧
    rabs (find_smart_boundary 1 [(2, 5)] [0] true "Nearest Boundary (either)" 1 "start" - 1) =
      rabs (2 - 1) ∧
    rabs (find_smart_boundary 1 [(2, 5)] [0] true "Nearest Boundary (either)" 1 "start" - 1) =
      rabs (0 - 1) :=
  c6_nearest_either_tie_prefers_scene 1 1 [(2, 5)] [0] "start" 2 0
    (by norm_num [nearbyOf, sceneEdges, rabs])
    (by norm_num [nearbyOf, rabs])
    (by norm_num [rabs])
    (by norm_num [nearbyOf, sceneEdges, rabs])

theorem genLoop_zeroDraws_stuck (fuel attempts : Nat) :
    genLoop 100 10 5 zeroDraws fuel attempts [(0, 10, "")] = [(0, 10, "")] := by
  induction fuel generalizing attempts with
  | zero => rfl
  | succ f ih =>
    have hov : overlapsAny (zeroDraws attempts) (zeroDraws attempts + 10)
        [(0, 10, "")] = true := by
      refine (overlapsAny_eq_true_iff _ _ _).mpr
        ⟨(0, 10, ""), List.mem_singleton_self _, ?_, ?_⟩
      · show (0 : ℚ) < zeroDraws attempts + 10
        norm_num [zeroDraws]
      · show zeroDraws attempts < (10 : ℚ)
        norm_num [zeroDraws]
    rw [genLoop_succ, if_pos (by norm_num), if_neg (by norm_num), if_pos hov]
    exact ih (attempts + 1)

/-- C1 counterexample: at `fixedLength = 0` (duration 1, one clip, the
admissible all-zero draw stream, whose every draw lies in
`[0, max_start] = [0, 1]`) the returned window `(0, 0)` violates
`start < end`, refuting C1 as universally quantified over fixedLength. -/
theorem c1_counterexample :
    generate_non_overlapping_clips 1 1 0 zeroDraws = [(0, 0, "")] ∧
      ¬(∀ c ∈ generate_non_overlapping_clips 1 1 0 zeroDraws, c.1 < c.2.1) := by
  have hrun : genLoop 1 0 1 zeroDraws (1 * 20) 0 [] = [(0, 0, "")] := by
    rw [show (1 * 20 : Nat) = 19 + 1 from rfl, genLoop_succ,
      if_pos (by norm_num), if_neg (by norm_num), if_neg (by simp [overlapsAny])]
    have hlist : (([] : List Clip) ++ [(zeroDraws 0, zeroDraws 0 + 0, "")]) = [(0, 0, "")] := by
      norm_num [zeroDraws]
    rw [hlist, show (19 : Nat) = 18 + 1 from rfl, genLoop_succ, if_neg (by norm_num)]
  have hmain : generate_non_overlapping_clips 1 1 0 zeroDraws = [(0, 0, "")] := by
    unfold generate_non_overlapping_clips
    rw [hrun]
    simp [sortClips]
  refine ⟨hmain, fun hall => ?_⟩
  have h2 := hall (0, 0, "") (by rw [hmain]; exact List.mem_singleton_self _)
  exact absurd h2 (by norm_num)

/-- C3 counterexample: the admissible all-zero draw stream (every draw in
`[0, 90]`) makes `generate_non_overlapping_clips 100 5 10` return a single
window: the first draw is accepted and every further draw overlaps it until
the 100-attempt budget is gone, so "exactly 5 windows for every outcome of
the draws" is false. -/
theorem c3_counterexample :
    generate_non_overlapping_clips 100 5 10 zeroDraws = [(0, 10, "")] ∧
      (generate_non_overlapping_clips 100 5 10 zeroDraws).length ≠ 5 := by
  have hrun : genLoop 100 10 5 zeroDraws (5 * 20) 0 [] = [(0, 10, "")] := by
    rw [show (5 * 20 : Nat) = 99 + 1 from rfl, genLoop_succ,
      if_pos (by norm_num), if_neg (by norm_num), if_neg (by simp [overlapsAny])]
    have hlist : (([] : List Clip) ++ [(zeroDraws 0, zeroDraws 0 + 10, "")]) = [(0, 10, "")] := by
      norm_num [zeroDraws]
    rw [hlist]
    exact genLoop_zeroDraws_stuck 99 (0 + 1)
  have hmain : generate_non_overlapping_clips 100 5 10 zeroDraws = [(0, 10, "")] := by
    unfold generate_non_overlapping_clips
    rw [hrun]
    simp [sortClips]
  refine ⟨hmain, ?_⟩
  rw [hmain]
  norm_num

/-- C3 (amended: deterministic feasibility for every draw outcome is replaced
by an attempt-budget cap plus existence of a successful outcome): for
`duration=100, count=5, fixedLength=10` the generator never returns more than
5 windows for any draw stream, the draw stream 0, 20, 40, 60, 80 is
admissible (every draw lies in `[0, 90]`), and on it the generator returns
exactly 5 pairwise-disjoint windows within the attempt budget. -/
theorem c3_cap_and_feasible_outcome :
    (∀ draws : Nat → ℚ, (generate_non_overlapping_clips 100 5 10 draws).length ≤ 5) ∧
      (∀ i, 0 ≤ feasibleDraws i ∧ feasibleDraws i ≤ 100 - 10) ∧
      (generate_non_overlapping_clips 100 5 10 feasibleDraws).length = 5 ∧
      List.Pairwise DisjointW (generate_non_overlapping_clips 100 5 10 feasibleDraws) := by
  have f0 : feasibleDraws 0 = 0 := rfl
  have f1 : feasibleDraws 1 = 20 := rfl
  have f2 : feasibleDraws 2 = 40 := rfl
  have f3 : feasibleDraws 3 = 60 := rfl
  have f4 : feasibleDraws 4 = 80 := rfl
  have s1 : genLoop 100 10 5 feasibleDraws 100 0 [] =
      genLoop 100 10 5 feasibleDraws 99 1 [(0, 10, "")] := by
    rw [show (100 : Nat) = 99 + 1 from rfl, genLoop_succ,
      if_pos (by norm_num), if_neg (by norm_num), if_neg (by simp [overlapsAny])]
    norm_num [f0]
  have hov1 : ¬ overlapsAny (feasibleDraws 1) (feasibleDraws 1 + 10)
      [(0, 10, "")] = true := by
    rw [overlapsAny_eq_true_iff]
    rintro ⟨c, hc, h1, h2⟩
    rw [List.mem_singleton] at hc
    subst hc
    rw [f1] at h2
    norm_num at h2
  have s2 : genLoop 100 10 5 feasibleDraws 99 1 [(0, 10, "")] =
      genLoop 100 10 5 feasibleDraws 98 2 [(0, 10, ""), (20, 30, "")] := by
    rw [show (99 : Nat) = 98 + 1 from rfl, genLoop_succ,
      if_pos (by norm_num), if_neg (by norm_num), if_neg hov1]
    norm_num [f1]
  have hov2 : ¬ overlapsAny (feasibleDraws 2) (feasibleDraws 2 + 10)
      [(0, 10, ""), (20, 30, "")] = true := by
    rw [overlapsAny_eq_true_iff]
    rintro ⟨c, hc, h1, h2⟩
    simp only [List.mem_cons, List.not_mem_nil, or_false] at hc
    rw [f2] at h2
    rcases hc with rfl | rfl <;> norm_num at h2
  have s3 : genLoop 100 10 5 feasibleDraws 98 2 [(0, 10, ""), (20, 30, "")] =
      genLoop 100 10 5 feasibleDraws 97 3 [(0, 10, ""), (20, 30, ""), (40, 50, "")] := by
    rw [show (98 : Nat) = 97 + 1 from rfl, genLoop_succ,
      if_pos (by norm_num), if_neg (by norm_num), if_neg hov2]
    norm_num [f2]
  have hov3 : ¬ overlapsAny (feasibleDraws 3) (feasibleDraws 3 + 10)
      [(0, 10, ""), (20, 30, ""), (40, 50, "")] = true := by
    rw [overlapsAny_eq_true_iff]
    rintro ⟨c, hc, h1, h2⟩
    simp only [List.mem_cons, List.not_mem_nil, or_false] at hc
    rw [f3] at h2
    rcases hc with rfl | rfl | rfl <;> norm_num at h2
  have s4 : genLoop 100 10 5 feasibleDraws 97 3 [(0, 10, ""), (20, 30, ""), (40, 50, "")] =
      genLoop 100 10 5 feasibleDraws 96 4
        [(0, 10, ""), (20, 30, ""), (40, 50, ""), (60, 70, "")] := by
    rw [show (97 : Nat) = 96 + 1 from rfl, genLoop_succ,
      if_pos (by norm_num), if_neg (by norm_num), if_neg hov3]
    norm_num [f3]
  have hov4 : ¬ overlapsAny (feasibleDraws 4) (feasibleDraws 4 + 10)
      [(0, 10, ""), (20, 30, ""), (40, 50, ""), (60, 70, "")] = true := by
    rw [overlapsAny_eq_true_iff]
    rintro ⟨c, hc, h1, h2⟩
    simp only [List.mem_cons, List.not_mem_nil, or_false] at hc
    rw [f4] at h2
    rcases hc with rfl | rfl | rfl | rfl <;> norm_num at h2
  have s5 : genLoop 100 10 5 feasibleDraws 96 4
      [(0, 10, ""), (20, 30, ""), (40, 50, ""), (60, 70, "")] =
      genLoop 100 10 5 feasibleDraws 95 5
        [(0, 10, ""), (20, 30, ""), (40, 50, ""), (60, 70, ""), (80, 90, "")] := by
    rw [show (96 : Nat) = 95 + 1 from rfl, genLoop_succ,
      if_pos (by norm_num), if_neg (by norm_num), if_neg hov4]
    norm_num [f4]
  have s6 : genLoop 100 10 5 feasibleDraws 95 5
      [(0, 10, ""), (20, 30, ""), (40, 50, ""), (60, 70, ""), (80, 90, "")] =
      [(0, 10, ""), (20, 30, ""), (40, 50, ""), (60, 70, ""), (80, 90, "")] := by
    rw [show (95 : Nat) = 94 + 1 from rfl, genLoop_succ, if_neg (by norm_num)]
  have hmain : generate_non_overlapping_clips 100 5 10 feasibleDraws =
      [(0, 10, ""), (20, 30, ""), (40, 50, ""), (60, 70, ""), (80, 90, "")] := by
    unfold generate_non_overlapping_clips
    rw [show (5 * 20 : Nat) = 100 from rfl, s1, s2, s3, s4, s5, s6]
    exact sortClips_of_sorted _ (by norm_num [List.pairwise_cons])
  refine ⟨?_, ?_, ?_, ?_⟩
  · intro draws
    unfold generate_non_overlapping_clips
    rw [(sortClips_perm _).length_eq]
    exact genLoop_length_le 100 10 5 draws _ 0 [] (by norm_num)
  · intro i
    unfold feasibleDraws
    rcases i with _ | _ | _ | _ | _ | j
    · norm_num
    · norm_num
    · norm_num
    · norm_num
    · norm_num
    · rw [List.getD_eq_default]
      · norm_num
      · simp
  · rw [hmain]
    norm_num
  · rw [hmain]
    norm_num [List.pairwise_cons, DisjointW]

/-- C8 (code bug): the smart-adjustment step keeps a window iff its
independently resolved edges still satisfy `end' > start'`, but the
application resolver never moves an edge (its priority strings "Scenes" /
"Speech" match no policy, see C2), so the drop case is unreachable.  At the
very input built to trigger a drop - window `(5.8, 10.8)`, scenes
`[(6.4, 30)]`, speech `[6]`, tolerance `5`, where the intended policies would
snap the start to `6.4` and the end to `6` and the inverted pair would be
dropped - the code returns the window unchanged and the count does not
decrease. -/
theorem c8_adjustment_drop_unreachable :
    apply_smart_adjustment "Smart" true true [(32/5, 30)] [6] 5 [(29/5, 54/5, "")] =
      [(29/5, 54/5, "")] ∧
      (apply_smart_adjustment "Smart" true true [(32/5, 30)] [6] 5
          [(29/5, 54/5, "")]).length = 1 := by
  have h : apply_smart_adjustment "Smart" true true [(32/5, 30)] [6] 5
      [(29/5, 54/5, "")] = [(29/5, 54/5, "")] := by
    unfold apply_smart_adjustment
    rw [if_pos ⟨by decide, Or.inl (List.cons_ne_nil _ _)⟩]
    simp only [List.filterMap_cons, List.filterMap_nil, main_find_smart_boundary_eq]
    norm_num
  exact ⟨h, by rw [h, List.length_singleton]⟩

end ShortsMaker
